import Mathlib

/-!
Shallow embedding of `MonteCarloSim.py` from the Monte-Carlo-Simulation
repository, together with proofs about it.

Modeling conventions:
* Float arithmetic is embedded as exact rational arithmetic over `ℚ`.
* The numpy global random stream consumed by `scipy.stats.levy_stable.rvs` is
  modeled as an ambient infinite sequence `stream : ℕ → ℚ` of draw values
  together with an explicit cursor `pos : ℕ`; a call of size `n` hands out
  `stream pos, …, stream (pos + n - 1)` and advances the cursor by `n`.  The
  distribution parameters stored on a `Returns` object do not further enter
  the model: the stream already stands for the sampled values.
* A numpy/scipy call that raises an exception is modeled with `Except`.
* Calls to `matplotlib` and `print` are modeled as a trace of effects
  accumulated alongside the returned data.
* `scipy.stats.ks_2samp` is kept abstract as a parameter
  `ks : List ℚ → List ℚ → ℚ × ℚ` returning `(statistic, p_value)`: the
  properties proved about `check_monte_carlo_trials` concern control flow and
  data plumbing, which hold for every choice of `ks`.
-/

namespace MonteCarloSim

/-- Errors raised inside numpy/scipy calls (for instance `np.percentile` on an
empty array, or a percentile outside `[0, 100]`). -/
inductive PyError where
  | valueError
deriving DecidableEq

/-- `Returns.__init__` (lines 12-20): it merely stores its three arguments;
no validation of any kind is performed. -/
structure Returns where
  num_observations : ℕ
  ndays : ℕ
  parameters : List ℚ
deriving DecidableEq

/-- The default `levy_parameters = [1.7, 0.0, 1.0, 1.0]`. -/
def defaultLevyParameters : List ℚ := [17/10, 0, 1, 1]

/-- `Returns.generate_1day_returns` (lines 22-30): draws `num_observations`
values from the global stream (modeling
`levy_stable.rvs(size = num_observations)` with the seed line commented out in
the source) and advances the global cursor. -/
def Returns.generate_1day_returns (r : Returns) (stream : ℕ → ℚ) (pos : ℕ) :
    List ℚ × ℕ :=
  ((List.range r.num_observations).map fun i => stream (pos + i),
    pos + r.num_observations)

/-- The windowing loop of `Returns.generate_ndays_returns` (lines 38-46):
add 1 to every 1-day return, take the product over each window
`[i, i + ndays)` for `i` in `range(len(returns_1day) - ndays + 1)` (integer
arithmetic, hence an empty range whenever `ndays > len(returns_1day)`), and
subtract 1 from each product. -/
def compoundWindows (returns_1day : List ℚ) (ndays : ℕ) : List ℚ :=
  (List.range (((returns_1day.length : ℤ) - ndays + 1).toNat)).map fun i =>
    (((returns_1day.map (· + 1)).drop i).take ndays).prod - 1

/-- `Returns.generate_ndays_returns` (lines 32-46): generate fresh 1-day
returns, then compound them into overlapping `ndays`-day returns. -/
def Returns.generate_ndays_returns (r : Returns) (stream : ℕ → ℚ) (pos : ℕ) :
    List ℚ × ℕ :=
  (compoundWindows (r.generate_1day_returns stream pos).1 r.ndays,
    (r.generate_1day_returns stream pos).2)

/-- `np.percentile(a, q)` with its default linear interpolation method:
raises on an empty array or on `q` outside `[0, 100]`; otherwise sorts `a`
and linearly interpolates at fractional position `q / 100 * (len - 1)`
between consecutive order statistics. -/
def npPercentile (a : List ℚ) (q : ℚ) : Except PyError ℚ :=
  if a.isEmpty then .error .valueError
  else if q < 0 ∨ 100 < q then .error .valueError
  else
    let s := a.insertionSort (· ≤ ·)
    let pos := q / 100 * ((a.length : ℚ) - 1)
    let i := (⌊pos⌋).toNat
    let frac := pos - (i : ℚ)
    .ok (if i + 1 < a.length then
          s.getD i 0 + frac * (s.getD (i + 1) 0 - s.getD i 0)
        else s.getD i 0)

/-- The default `q_value = 0.01` of `Returns.get_percentile`. -/
def default_q_value : ℚ := 1 / 100

/-- `Returns.get_percentile` (lines 48-57): generate the n-days return series
and apply `np.percentile(series, q_value)`.  The global cursor has already
advanced by the time `np.percentile` runs, so the advance happens even when
`np.percentile` raises. -/
def Returns.get_percentile (r : Returns) (q_value : ℚ) (stream : ℕ → ℚ)
    (pos : ℕ) : Except PyError ℚ × ℕ :=
  (npPercentile (r.generate_ndays_returns stream pos).1 q_value,
    (r.generate_ndays_returns stream pos).2)

/-- Modelled from the spec: "`percentile(series, q)`: the q-quantile of
`series` under linear interpolation between order statistics", with `q` read
as a probability in `[0, 1]`, i.e. linear interpolation at fractional
position `q * (len - 1)` of the sorted series. -/
def quantile_spec_prob (a : List ℚ) (p : ℚ) : ℚ :=
  let s := a.insertionSort (· ≤ ·)
  let pos := p * ((a.length : ℚ) - 1)
  let i := (⌊pos⌋).toNat
  let frac := pos - (i : ℚ)
  if i + 1 < a.length then
    s.getD i 0 + frac * (s.getD (i + 1) 0 - s.getD i 0)
  else s.getD i 0

/-- `np.mean` on a rational list (on an empty list numpy would produce NaN;
the loops below only ever apply it to non-empty lists). -/
def mean (l : List ℚ) : ℚ := l.sum / l.length

/-- The plain trial loop (lines 86-91 and the inner loop of the `'CLT'`
branch): `n` successive calls of `returns.get_percentile()` collected in call
order, threading the global cursor; a raising call aborts the whole loop. -/
def runTrials (r : Returns) (stream : ℕ → ℚ) :
    ℕ → ℕ → Except PyError (List ℚ × ℕ)
  | 0, pos => .ok ([], pos)
  | n + 1, pos =>
    match r.get_percentile default_q_value stream pos with
    | (.error e, _) => .error e
    | (.ok v, pos1) =>
      match runTrials r stream n pos1 with
      | .error e => .error e
      | .ok (l, pos2) => .ok (v :: l, pos2)

/-- `simulate_monte_carlo` (lines 77-91): builds
`Returns(num_observations, ndays)` with the default distribution parameters
and collects `trials` percentiles.  No argument validation happens. -/
def simulate_monte_carlo (num_observations ndays trials : ℕ)
    (stream : ℕ → ℚ) (pos : ℕ) : Except PyError (List ℚ) :=
  match runTrials ⟨num_observations, ndays, defaultLevyParameters⟩ stream
      trials pos with
  | .error e => .error e
  | .ok (percentiles, _) => .ok percentiles

/-- Observable side effects of `check_monte_carlo_trials`: a matplotlib
rendering block (a run of `plt.…` calls ending in `plt.show()`), the
per-batch progress `print` of the `'test_statistic'` branch, and its
`"Simulation failed!"` print at the hard cap. -/
inductive Effect where
  | render
  | progressPrint
  | failedPrint
deriving DecidableEq

/-- The outer loop of the `'CLT'` branch (lines 112-126): `samples`
repetitions of a `MAX_TRIALS = 15000` trial run, recording `np.mean` of each
percentile sample in order.  (`np.std` is also computed by the source, but it
is never returned nor printed: being a real square root it has no rational
value, and dropping it is invisible in every output.) -/
def cltSamples (r : Returns) (stream : ℕ → ℚ) :
    ℕ → ℕ → Except PyError (List ℚ)
  | 0, _ => .ok []
  | s + 1, pos =>
    match runTrials r stream 15000 pos with
    | .error e => .error e
    | .ok (percentile, pos1) =>
      match cltSamples r stream s pos1 with
      | .error e => .error e
      | .ok means => .ok (mean percentile :: means)

/-- The `'monitoring'` branch loop (lines 135-145): one trial at a time up to
`MAX_TRIALS = 30000`, recording after each trial the running mean of all
percentiles observed so far and the trial index. -/
def monitoringLoop (r : Returns) (stream : ℕ → ℚ) :
    ℕ → ℕ → List ℚ → List ℚ → List ℕ → ℕ →
    Except PyError (List ℚ × List ℕ)
  | 0, _, _, mean_perc, trials_list, _ => .ok (mean_perc, trials_list)
  | fuel + 1, trial, percentiles, mean_perc, trials_list, pos =>
    match r.get_percentile default_q_value stream pos with
    | (.error e, _) => .error e
    | (.ok v, pos1) =>
      monitoringLoop r stream fuel (trial + 1) (percentiles ++ [v])
        (mean_perc ++ [mean (percentiles ++ [v])])
        (trials_list ++ [trial + 1]) pos1

/-- State of the `'test_statistic'` while-loop (lines 155-177): the trial
counter, the current `p_value` and `statistic`, the two accumulator samples,
and the global stream cursor. -/
structure TSState where
  trials : ℕ
  p_value : ℚ
  statistic : ℚ
  p_list1 : List ℚ
  p_list2 : List ℚ
  pos : ℕ
deriving DecidableEq

/-- The initial `statistic = 10e8`. -/
def statInit : ℚ := 10 ^ 9

/-- How a pass through the `'test_statistic'` while-loop ended: a regular
exit of the `while` (convergence), the `break` at the hard cap, a numpy
exception, or exhaustion of the fuel of the embedding (unreachable from the
entry state, whose fuel exceeds what the hard cap admits). -/
inductive TSExit where
  | converged
  | capped
  | errored (e : PyError)
  | fuelOut
deriving DecidableEq

/-- The tail of one `'test_statistic'` iteration after both draws succeeded
(lines 162-173): append one draw to each accumulator and, when the
incremented trial counter is a multiple of `BATCH = 100`, recompute
`(statistic, p_value) = ks_2samp(p_list1, p_list2)` and print a progress
line. -/
def tsBatch (ks : List ℚ → List ℚ → ℚ × ℚ) (st : TSState)
    (effs : List Effect) (v1 v2 : ℚ) (pos2 : ℕ) : TSState × List Effect :=
  if (st.trials + 1) % 100 = 0 then
    (⟨st.trials + 1, (ks (st.p_list1 ++ [v1]) (st.p_list2 ++ [v2])).2,
       (ks (st.p_list1 ++ [v1]) (st.p_list2 ++ [v2])).1,
       st.p_list1 ++ [v1], st.p_list2 ++ [v2], pos2⟩,
      effs ++ [Effect.progressPrint])
  else
    (⟨st.trials + 1, st.p_value, st.statistic, st.p_list1 ++ [v1],
       st.p_list2 ++ [v2], pos2⟩, effs)

/-- The `'test_statistic'` while-loop (lines 155-177): while
`statistic > discrepancy or p_value < significance_level`, increment the
trial counter, draw one fresh percentile into each accumulator (a raising
draw propagates the exception, after the first draw was already appended),
recompute the test every `BATCH = 100` trials, and `break` printing
`"Simulation failed!"` as soon as the counter exceeds the hard cap of
`200000`. -/
def tsLoop (r : Returns) (stream : ℕ → ℚ) (ks : List ℚ → List ℚ → ℚ × ℚ)
    (significance_level discrepancy : ℚ) :
    ℕ → TSState → List Effect → TSState × List Effect × TSExit
  | 0, st, effs => (st, effs, .fuelOut)
  | fuel + 1, st, effs =>
    if discrepancy < st.statistic ∨ st.p_value < significance_level then
      match r.get_percentile default_q_value stream st.pos with
      | (.error e, pos1) =>
        (⟨st.trials + 1, st.p_value, st.statistic, st.p_list1, st.p_list2,
           pos1⟩, effs, .errored e)
      | (.ok v1, pos1) =>
        match r.get_percentile default_q_value stream pos1 with
        | (.error e, pos2) =>
          (⟨st.trials + 1, st.p_value, st.statistic, st.p_list1 ++ [v1],
             st.p_list2, pos2⟩, effs, .errored e)
        | (.ok v2, pos2) =>
          if 200000 < st.trials + 1 then
            ((tsBatch ks st effs v1 v2 pos2).1,
              (tsBatch ks st effs v1 v2 pos2).2 ++ [Effect.failedPrint],
              .capped)
          else
            tsLoop r stream ks significance_level discrepancy fuel
              (tsBatch ks st effs v1 v2 pos2).1
              (tsBatch ks st effs v1 v2 pos2).2
    else (st, effs, .converged)

/-- The heterogeneous tuples returned by the three recognized branches of
`check_monte_carlo_trials`: `(mean, MAX_TRIALS)`, `(mean_perc, trials)`
(the latter a list of trial indices), and `(percentiles, trials)`. -/
inductive CheckResult where
  | clt (mean : List ℚ) (max_trials : ℕ)
  | monitoring (mean_perc : List ℚ) (trials : List ℕ)
  | test_statistic (percentiles : List ℚ) (trials : ℕ)
deriving DecidableEq

/-- `check_monte_carlo_trials` (lines 94-181).  Returns the data the Python
function returns — `none` modeling the implicit `None` of an unrecognized
method name — paired with the trace of rendering/printing effects; an
uncaught numpy exception is an `Except.error`.  The `'test_statistic'`
branch runs its loop with fuel `200002`, more than the hard cap at `200000`
trials ever lets the loop consume. -/
def check_monte_carlo_trials (method : String) (num_observations ndays : ℕ)
    (significance_level discrepancy : ℚ) (ks : List ℚ → List ℚ → ℚ × ℚ)
    (stream : ℕ → ℚ) (pos : ℕ) :
    Except PyError (Option CheckResult) × List Effect :=
  let returns : Returns := ⟨num_observations, ndays, defaultLevyParameters⟩
  if method = "CLT" then
    match cltSamples returns stream 100 pos with
    | .error e => (.error e, [])
    | .ok means => (.ok (some (.clt means 15000)), [.render])
  else if method = "monitoring" then
    match monitoringLoop returns stream 30000 0 [] [] [] pos with
    | .error e => (.error e, [])
    | .ok (mean_perc, trials_list) =>
      (.ok (some (.monitoring mean_perc trials_list)), [.render])
  else if method = "test_statistic" then
    match tsLoop returns stream ks significance_level discrepancy 200002
        ⟨0, 0, statInit, [], [], pos⟩ [] with
    | (_, effs, .errored e) => (.error e, effs)
    | (st, effs, .converged) =>
      (.ok (some (.test_statistic (st.p_list1 ++ st.p_list2) st.trials)), effs)
    | (st, effs, .capped) =>
      (.ok (some (.test_statistic (st.p_list1 ++ st.p_list2) st.trials)), effs)
    | (st, effs, .fuelOut) =>
      (.ok (some (.test_statistic (st.p_list1 ++ st.p_list2) st.trials)), effs)
  else (.ok none, [])

/-- Fixture: a degenerate stream whose every draw is 0. -/
def zeroStream : ℕ → ℚ := fun _ => 0

/-- Fixture: a `Returns` object observing a single 1-day return compounded
over a window of one day. -/
def unitReturns : Returns := ⟨1, 1, defaultLevyParameters⟩

/-- Fixture: a two-sample test that always reports perfect agreement,
`statistic = 0` and `p_value = 1`. -/
def constKS : List ℚ → List ℚ → ℚ × ℚ := fun _ _ => (0, 1)

/-- Decidable equality of modeled call results. -/
instance {ε α : Type} [DecidableEq ε] [DecidableEq α] :
    DecidableEq (Except ε α) := fun x y =>
  match x, y with
  | .ok a, .ok b => decidable_of_iff (a = b) (by simp)
  | .error e, .error f => decidable_of_iff (e = f) (by simp)
  | .ok _, .error _ => .isFalse (by simp)
  | .error _, .ok _ => .isFalse (by simp)

section

attribute [local semireducible] Rat.add Rat.mul Rat.inv Rat.sub

/-- The n-days series produced inside `generate_ndays_returns` has
`(num_observations - ndays + 1).toNat` entries. -/
theorem generate_ndays_returns_length (r : Returns) (stream : ℕ → ℚ)
    (pos : ℕ) :
    ((r.generate_ndays_returns stream pos).1).length =
      ((r.num_observations : ℤ) - r.ndays + 1).toNat := by
  simp [Returns.generate_ndays_returns, Returns.generate_1day_returns,
    compoundWindows]

/-- `np.percentile` succeeds on every non-empty series and every
`q ∈ [0, 100]`. -/
theorem npPercentile_ok (a : List ℚ) (q : ℚ) (h0 : a ≠ []) (h1 : 0 ≤ q)
    (h2 : q ≤ 100) : ∃ v, npPercentile a q = Except.ok v := by
  unfold npPercentile
  rw [if_neg (by simpa using h0),
    if_neg (by simp only [not_or, not_lt]; exact ⟨h1, h2⟩)]
  exact ⟨_, rfl⟩

/-- Whenever `ndays ≤ num_observations`, a `get_percentile` call succeeds
and advances the global cursor by `num_observations`. -/
theorem get_percentile_ok (num_observations ndays : ℕ) (params : List ℚ)
    (stream : ℕ → ℚ) (pos : ℕ) (h : ndays ≤ num_observations) :
    ∃ v, Returns.get_percentile ⟨num_observations, ndays, params⟩
        default_q_value stream pos = (Except.ok v, pos + num_observations) := by
  obtain ⟨v, hv⟩ :=
    npPercentile_ok ((Returns.generate_ndays_returns
        ⟨num_observations, ndays, params⟩ stream pos).1) default_q_value
      (by
        have hl := generate_ndays_returns_length
          ⟨num_observations, ndays, params⟩ stream pos
        intro hnil
        rw [hnil] at hl
        simp only [List.length_nil] at hl
        omega)
      (by norm_num [default_q_value]) (by norm_num [default_q_value])
  exact ⟨v, by
    simp only [Returns.get_percentile, hv]
    simp [Returns.generate_ndays_returns, Returns.generate_1day_returns]⟩

/-- C7: for every one-day return series, compounding with window size
`ndays = 1` is the identity: `compound(series, 1)` equals the input series
elementwise. -/
theorem compound_window_one_identity (series : List ℚ) :
    compoundWindows series 1 = series := by
  apply List.ext_getElem
  · simp only [compoundWindows, List.length_map, List.length_range]
    omega
  · intro i h1 h2
    simp only [compoundWindows, List.getElem_map, List.getElem_range]
    rw [List.drop_eq_getElem_cons (by simpa using h2)]
    simp

/-- C6: for every `ndays ≥ 1` and every one-day return series of length `L`,
the compounding step produces a series of length exactly
`max 0 (L - ndays + 1)`; when `ndays > L` it returns an empty series rather
than raising; and the same count holds for `generate_ndays_returns` with
`L = num_observations`. -/
theorem compound_length_max (ndays : ℕ) (h : 1 ≤ ndays) :
    (∀ series : List ℚ,
        ((compoundWindows series ndays).length : ℤ) =
          max 0 ((series.length : ℤ) - ndays + 1)) ∧
    (∀ series : List ℚ, series.length < ndays →
        compoundWindows series ndays = []) ∧
    (∀ (r : Returns) (stream : ℕ → ℚ) (pos : ℕ), r.ndays = ndays →
        (((r.generate_ndays_returns stream pos).1).length : ℤ) =
          max 0 ((r.num_observations : ℤ) - ndays + 1)) := by
  refine ⟨fun series => ?_, fun series hlt => ?_, fun r stream pos hnd => ?_⟩
  · simp only [compoundWindows, List.length_map, List.length_range]
    omega
  · have hz : ((series.length : ℤ) - ndays + 1).toNat = 0 := by omega
    simp [compoundWindows, hz]
  · rw [generate_ndays_returns_length, hnd]
    omega

/-- C6 witness: window size 3 on a series of four returns leaves
`max 0 (4 - 3 + 1) = 2` compounded returns. -/
theorem compound_length_max_witness :
    1 ≤ 3 ∧
      ((compoundWindows [5, 6, 7, 8] 3).length : ℤ) =
        max 0 ((([5, 6, 7, 8] : List ℚ).length : ℤ) - 3 + 1) :=
  ⟨by decide, (compound_length_max 3 (by decide)).1 [5, 6, 7, 8]⟩

/-- C1 counterexample: with the default `q_value = 0.01`,
`percentile(series, q)` is not the q-quantile for `q` read as a probability
in `[0, 1]`: on the series `[0, 1]` the code (`np.percentile`) yields
`1/10000`, while the quantile below which 1% of the probability mass falls
is `1/100`. -/
theorem percentile_prob_scale_cex :
    npPercentile [0, 1] default_q_value ≠
      Except.ok (quantile_spec_prob [0, 1] default_q_value) := by decide

/-- C1 amended: `percentile(series, q)` is the `(q/100)`-quantile of the
series under linear interpolation between order statistics — `np.percentile`
reads `q` on the 0-100 percent scale, so the default `q = 0.01` marks the
0.0001 probability tail, not the 1% one. -/
theorem percentile_is_percent_scale_quantile (a : List ℚ) (q : ℚ)
    (h0 : a ≠ []) (h1 : 0 ≤ q) (h2 : q ≤ 100) :
    npPercentile a q = Except.ok (quantile_spec_prob a (q / 100)) := by
  unfold npPercentile quantile_spec_prob
  rw [if_neg (by simpa using h0),
    if_neg (by simp only [not_or, not_lt]; exact ⟨h1, h2⟩)]

/-- C1 amended witness: instantiated at the series `[0, 1]` and `q = 50`. -/
theorem percentile_is_percent_scale_quantile_witness :
    (([0, 1] : List ℚ) ≠ [] ∧ (0 : ℚ) ≤ 50 ∧ (50 : ℚ) ≤ 100) ∧
      npPercentile [0, 1] 50 =
        Except.ok (quantile_spec_prob [0, 1] (50 / 100)) :=
  ⟨⟨by decide, by decide, by decide⟩,
    percentile_is_percent_scale_quantile [0, 1] 50 (by decide) (by decide)
      (by decide)⟩

/-- C3 counterexample: two invalid configurations run without any error.
`Returns(3, 0)` — violating `ndays ≥ 1` — draws three samples (the cursor
moves from 0 to 3, so sampling does happen) and then returns percentile 0;
`simulate_monte_carlo` with `trials = 0` — violating `trials ≥ 1` — returns
an empty list.  No `InvalidConfiguration` is raised anywhere: the source
contains no validation code at all. -/
theorem no_invalid_configuration_cex :
    Returns.get_percentile ⟨3, 0, defaultLevyParameters⟩ default_q_value
        zeroStream 0 = (Except.ok 0, 3) ∧
      simulate_monte_carlo 750 10 0 zeroStream 0 = Except.ok [] := by
  constructor <;> decide

/-- C3 amended: the code performs no configuration validation whatever.
Every `get_percentile` call samples unconditionally — the cursor always
advances by `num_observations`, whatever the configuration — and afterwards
a configuration with `num_observations < ndays` fails only inside
`np.percentile` on the empty series (a plain numpy ValueError, detected
after sampling), while every other configuration, the invalid `ndays = 0`
included, returns a percentile value. -/
theorem no_eager_validation (num_observations ndays : ℕ) (stream : ℕ → ℚ)
    (pos : ℕ) :
    ((Returns.get_percentile ⟨num_observations, ndays, defaultLevyParameters⟩
        default_q_value stream pos).2 = pos + num_observations) ∧
    (if num_observations < ndays then
      (Returns.get_percentile ⟨num_observations, ndays, defaultLevyParameters⟩
          default_q_value stream pos).1 = Except.error PyError.valueError
    else ∃ v,
      (Returns.get_percentile ⟨num_observations, ndays, defaultLevyParameters⟩
          default_q_value stream pos).1 = Except.ok v) := by
  constructor
  · simp [Returns.get_percentile, Returns.generate_ndays_returns,
      Returns.generate_1day_returns]
  · split
    · next hlt =>
      have hz : (((Returns.generate_ndays_returns
          ⟨num_observations, ndays, defaultLevyParameters⟩ stream pos).1)) = [] := by
        have hl := generate_ndays_returns_length
          ⟨num_observations, ndays, defaultLevyParameters⟩ stream pos
        have : ((num_observations : ℤ) - ndays + 1).toNat = 0 := by omega
        rw [this] at hl
        exact List.length_eq_zero.mp hl
      simp [Returns.get_percentile, hz, npPercentile]
    · next hge =>
      obtain ⟨v, hv⟩ := get_percentile_ok num_observations ndays
        defaultLevyParameters stream pos (by omega)
      exact ⟨v, by rw [hv]⟩

/-- The batch step increments the trial counter by exactly one. -/
theorem tsBatch_trials (ks : List ℚ → List ℚ → ℚ × ℚ) (st : TSState)
    (effs : List Effect) (v1 v2 : ℚ) (pos2 : ℕ) :
    ((tsBatch ks st effs v1 v2 pos2).1).trials = st.trials + 1 := by
  unfold tsBatch; split <;> rfl

/-- The batch step appends exactly one draw to the first accumulator. -/
theorem tsBatch_p_list1 (ks : List ℚ → List ℚ → ℚ × ℚ) (st : TSState)
    (effs : List Effect) (v1 v2 : ℚ) (pos2 : ℕ) :
    ((tsBatch ks st effs v1 v2 pos2).1).p_list1 = st.p_list1 ++ [v1] := by
  unfold tsBatch; split <;> rfl

/-- The batch step appends exactly one draw to the second accumulator. -/
theorem tsBatch_p_list2 (ks : List ℚ → List ℚ → ℚ × ℚ) (st : TSState)
    (effs : List Effect) (v1 v2 : ℚ) (pos2 : ℕ) :
    ((tsBatch ks st effs v1 v2 pos2).1).p_list2 = st.p_list2 ++ [v2] := by
  unfold tsBatch; split <;> rfl

/-- The batch step emits at most a progress print. -/
theorem tsBatch_effs (ks : List ℚ → List ℚ → ℚ × ℚ) (st : TSState)
    (effs : List Effect) (v1 v2 : ℚ) (pos2 : ℕ) :
    (tsBatch ks st effs v1 v2 pos2).2 = effs ∨
      (tsBatch ks st effs v1 v2 pos2).2 = effs ++ [Effect.progressPrint] := by
  unfold tsBatch; split
  · exact Or.inr rfl
  · exact Or.inl rfl

/-- The trial counter never decreases across the `'test_statistic'` loop. -/
theorem tsLoop_trials_le (r : Returns) (stream : ℕ → ℚ)
    (ks : List ℚ → List ℚ → ℚ × ℚ) (sl d : ℚ) :
    ∀ (fuel : ℕ) (st : TSState) (effs : List Effect) (st2 : TSState)
      (effs2 : List Effect) (ex : TSExit),
      tsLoop r stream ks sl d fuel st effs = (st2, effs2, ex) →
      st.trials ≤ st2.trials := by
  intro fuel
  induction fuel with
  | zero =>
    intro st effs st2 effs2 ex h
    simp only [tsLoop, Prod.mk.injEq] at h
    obtain ⟨rfl, -, -⟩ := h
    exact le_refl _
  | succ n ih =>
    intro st effs st2 effs2 ex h
    simp only [tsLoop] at h
    split at h
    · split at h
      · simp only [Prod.mk.injEq] at h
        obtain ⟨rfl, -, -⟩ := h
        exact Nat.le_succ _
      · split at h
        · simp only [Prod.mk.injEq] at h
          obtain ⟨rfl, -, -⟩ := h
          exact Nat.le_succ _
        · split at h
          · simp only [Prod.mk.injEq] at h
            obtain ⟨rfl, -, -⟩ := h
            rw [tsBatch_trials]
            exact Nat.le_succ _
          · have := ih _ _ _ _ _ h
            rw [tsBatch_trials] at this
            omega
    · simp only [Prod.mk.injEq] at h
      obtain ⟨rfl, -, -⟩ := h
      exact le_refl _

/-- The batch step never adds an effect other than the progress print. -/
theorem tsBatch_not_mem (ks : List ℚ → List ℚ → ℚ × ℚ) (st : TSState)
    (effs : List Effect) (v1 v2 : ℚ) (pos2 : ℕ) (e : Effect)
    (he : e ≠ Effect.progressPrint) (h : e ∉ effs) :
    e ∉ (tsBatch ks st effs v1 v2 pos2).2 := by
  rcases tsBatch_effs ks st effs v1 v2 pos2 with h2 | h2 <;> rw [h2]
  · exact h
  · intro hc
    rcases List.mem_append.mp hc with hc | hc
    · exact h hc
    · simp only [List.mem_singleton] at hc
      exact he hc

/-- The `'test_statistic'` loop never emits a rendering effect. -/
theorem tsLoop_no_render (r : Returns) (stream : ℕ → ℚ)
    (ks : List ℚ → List ℚ → ℚ × ℚ) (sl d : ℚ) :
    ∀ (fuel : ℕ) (st : TSState) (effs : List Effect) (st2 : TSState)
      (effs2 : List Effect) (ex : TSExit),
      Effect.render ∉ effs →
      tsLoop r stream ks sl d fuel st effs = (st2, effs2, ex) →
      Effect.render ∉ effs2 := by
  intro fuel
  induction fuel with
  | zero =>
    intro st effs st2 effs2 ex hmem h
    simp only [tsLoop, Prod.mk.injEq] at h
    obtain ⟨-, rfl, -⟩ := h
    exact hmem
  | succ n ih =>
    intro st effs st2 effs2 ex hmem h
    simp only [tsLoop] at h
    split at h
    · split at h
      · simp only [Prod.mk.injEq] at h
        obtain ⟨-, rfl, -⟩ := h
        exact hmem
      · split at h
        · simp only [Prod.mk.injEq] at h
          obtain ⟨-, rfl, -⟩ := h
          exact hmem
        · split at h
          · simp only [Prod.mk.injEq] at h
            obtain ⟨-, rfl, -⟩ := h
            intro hc
            rcases List.mem_append.mp hc with hc | hc
            · exact tsBatch_not_mem _ _ _ _ _ _ _ (by simp) hmem hc
            · simp at hc
          · exact ih _ _ _ _ _
              (tsBatch_not_mem _ _ _ _ _ _ _ (by simp) hmem) h
    · simp only [Prod.mk.injEq] at h
      obtain ⟨-, rfl, -⟩ := h
      exact hmem

/-- A run of the `'test_statistic'` loop that exits by regular convergence
never printed the failure message. -/
theorem tsLoop_converged_no_failedPrint (r : Returns) (stream : ℕ → ℚ)
    (ks : List ℚ → List ℚ → ℚ × ℚ) (sl d : ℚ) :
    ∀ (fuel : ℕ) (st : TSState) (effs : List Effect) (st2 : TSState)
      (effs2 : List Effect),
      Effect.failedPrint ∉ effs →
      tsLoop r stream ks sl d fuel st effs = (st2, effs2, TSExit.converged) →
      Effect.failedPrint ∉ effs2 := by
  intro fuel
  induction fuel with
  | zero =>
    intro st effs st2 effs2 hmem h
    simp [tsLoop] at h
  | succ n ih =>
    intro st effs st2 effs2 hmem h
    simp only [tsLoop] at h
    split at h
    · split at h
      · simp at h
      · split at h
        · simp at h
        · split at h
          · simp at h
          · exact ih _ _ _ _
              (tsBatch_not_mem _ _ _ _ _ _ _ (by simp) hmem) h
    · simp only [Prod.mk.injEq] at h
      obtain ⟨-, rfl, -⟩ := h
      exact hmem

/-- A run of the `'test_statistic'` loop that exits at the hard cap printed
the failure message. -/
theorem tsLoop_capped_failedPrint (r : Returns) (stream : ℕ → ℚ)
    (ks : List ℚ → List ℚ → ℚ × ℚ) (sl d : ℚ) :
    ∀ (fuel : ℕ) (st : TSState) (effs : List Effect) (st2 : TSState)
      (effs2 : List Effect),
      tsLoop r stream ks sl d fuel st effs = (st2, effs2, TSExit.capped) →
      Effect.failedPrint ∈ effs2 := by
  intro fuel
  induction fuel with
  | zero =>
    intro st effs st2 effs2 h
    simp [tsLoop] at h
  | succ n ih =>
    intro st effs st2 effs2 h
    simp only [tsLoop] at h
    split at h
    · split at h
      · simp at h
      · split at h
        · simp at h
        · split at h
          · simp only [Prod.mk.injEq] at h
            obtain ⟨-, rfl, -⟩ := h
            exact List.mem_append_right _ (by simp)
          · exact ih _ _ _ _ h
    · simp at h

/-- The `'test_statistic'` loop, entered below the hard cap, exits at the
cap with a trial count of exactly 200001. -/
theorem tsLoop_capped_trials (r : Returns) (stream : ℕ → ℚ)
    (ks : List ℚ → List ℚ → ℚ × ℚ) (sl d : ℚ) :
    ∀ (fuel : ℕ) (st : TSState) (effs : List Effect) (st2 : TSState)
      (effs2 : List Effect),
      st.trials ≤ 200000 →
      tsLoop r stream ks sl d fuel st effs = (st2, effs2, TSExit.capped) →
      st2.trials = 200001 := by
  intro fuel
  induction fuel with
  | zero =>
    intro st effs st2 effs2 hle h
    simp [tsLoop] at h
  | succ n ih =>
    intro st effs st2 effs2 hle h
    simp only [tsLoop] at h
    split at h
    · split at h
      · simp at h
      · split at h
        · simp at h
        · split at h
          · next hcap =>
            simp only [Prod.mk.injEq] at h
            obtain ⟨rfl, -, -⟩ := h
            rw [tsBatch_trials]
            omega
          · next hcap =>
            exact ih _ _ _ _ (by rw [tsBatch_trials]; omega) h
    · simp at h

/-- The two accumulators of the `'test_statistic'` loop grow in lockstep
with the trial counter on every non-raising exit. -/
theorem tsLoop_lockstep (r : Returns) (stream : ℕ → ℚ)
    (ks : List ℚ → List ℚ → ℚ × ℚ) (sl d : ℚ) :
    ∀ (fuel : ℕ) (st : TSState) (effs : List Effect) (st2 : TSState)
      (effs2 : List Effect) (ex : TSExit),
      st.p_list1.length = st.trials →
      st.p_list2.length = st.trials →
      tsLoop r stream ks sl d fuel st effs = (st2, effs2, ex) →
      (∀ e, ex ≠ TSExit.errored e) →
      st2.p_list1.length = st2.trials ∧ st2.p_list2.length = st2.trials := by
  intro fuel
  induction fuel with
  | zero =>
    intro st effs st2 effs2 ex h1 h2 h hex
    simp only [tsLoop, Prod.mk.injEq] at h
    obtain ⟨rfl, -, -⟩ := h
    exact ⟨h1, h2⟩
  | succ n ih =>
    intro st effs st2 effs2 ex h1 h2 h hex
    simp only [tsLoop] at h
    split at h
    · split at h
      · simp only [Prod.mk.injEq] at h
        obtain ⟨-, -, hx⟩ := h
        exact absurd hx.symm (hex _)
      · split at h
        · simp only [Prod.mk.injEq] at h
          obtain ⟨-, -, hx⟩ := h
          exact absurd hx.symm (hex _)
        · split at h
          · simp only [Prod.mk.injEq] at h
            obtain ⟨rfl, -, -⟩ := h
            rw [tsBatch_trials, tsBatch_p_list1, tsBatch_p_list2]
            simp [h1, h2]
          · exact ih _ _ _ _ _
              (by rw [tsBatch_trials, tsBatch_p_list1]; simp [h1])
              (by rw [tsBatch_trials, tsBatch_p_list2]; simp [h2]) h hex
    · simp only [Prod.mk.injEq] at h
      obtain ⟨rfl, -, -⟩ := h
      exact ⟨h1, h2⟩

/-- A regular (convergence) exit of the `'test_statistic'` loop lands in a
state where the statistic passes and the p-value passes, simultaneously. -/
theorem tsLoop_converged_cond (r : Returns) (stream : ℕ → ℚ)
    (ks : List ℚ → List ℚ → ℚ × ℚ) (sl d : ℚ) :
    ∀ (fuel : ℕ) (st : TSState) (effs : List Effect) (st2 : TSState)
      (effs2 : List Effect),
      tsLoop r stream ks sl d fuel st effs = (st2, effs2, TSExit.converged) →
      st2.statistic ≤ d ∧ sl ≤ st2.p_value := by
  intro fuel
  induction fuel with
  | zero =>
    intro st effs st2 effs2 h
    simp [tsLoop] at h
  | succ n ih =>
    intro st effs st2 effs2 h
    simp only [tsLoop] at h
    split at h
    · split at h
      · simp at h
      · split at h
        · simp at h
        · split at h
          · simp at h
          · exact ih _ _ _ _ h
    · next hcond =>
      simp only [Prod.mk.injEq] at h
      obtain ⟨rfl, -, -⟩ := h
      push_neg at hcond
      exact ⟨hcond.1, hcond.2⟩

/-- C2: the `'test_statistic'` sampling loop keeps drawing while
`statistic > discrepancy` or `p_value < significance_level` — whenever that
continue condition holds on entry, any converged exit carries a strictly
larger trial count — and, absent the hard cap, it terminates declaring
convergence only in a state where both `statistic ≤ discrepancy` and
`p_value ≥ significance_level` hold simultaneously. -/
theorem ts_converges_only_when_both_pass (r : Returns) (stream : ℕ → ℚ)
    (ks : List ℚ → List ℚ → ℚ × ℚ) (significance_level discrepancy : ℚ)
    (fuel : ℕ) (st : TSState) (effs : List Effect) (st2 : TSState)
    (effs2 : List Effect)
    (h : tsLoop r stream ks significance_level discrepancy fuel st effs =
      (st2, effs2, TSExit.converged)) :
    (st2.statistic ≤ discrepancy ∧ significance_level ≤ st2.p_value) ∧
      ((discrepancy < st.statistic ∨ st.p_value < significance_level) →
        st.trials < st2.trials) := by
  refine ⟨tsLoop_converged_cond r stream ks significance_level discrepancy
    fuel st effs st2 effs2 h, fun hcond => ?_⟩
  cases fuel with
  | zero => simp [tsLoop] at h
  | succ n =>
    simp only [tsLoop] at h
    rw [if_pos hcond] at h
    split at h
    · simp at h
    · split at h
      · simp at h
      · split at h
        · simp at h
        · have := tsLoop_trials_le r stream ks significance_level
            discrepancy _ _ _ _ _ _ h
          rw [tsBatch_trials] at this
          omega

set_option maxRecDepth 8000 in
/-- C2 witness: a degenerate fixture (single observation, one-day window,
all-zero draws, a test that always reports agreement) converges at trial
100, the first batch boundary, with `statistic = 0 ≤ 0.01` and
`p_value = 1 ≥ 0.6`. -/
theorem ts_converges_only_when_both_pass_witness :
    (((0 : ℚ) ≤ 1/100 ∧ (3/5 : ℚ) ≤ 1) ∧
      (((1 : ℚ)/100 < statInit ∨ (0 : ℚ) < 3/5) → 0 < 100)) :=
  have h : tsLoop unitReturns zeroStream constKS (3/5) (1/100) 200002
      ⟨0, 0, statInit, [], [], 0⟩ [] =
      (⟨100, 1, 0, List.replicate 100 0, List.replicate 100 0, 200⟩,
        [Effect.progressPrint], TSExit.converged) := by decide
  ts_converges_only_when_both_pass unitReturns zeroStream constKS (3/5)
    (1/100) 200002 ⟨0, 0, statInit, [], [], 0⟩ [] _ _ h

/-- C9: whenever the `'test_statistic'` branch of `check_monte_carlo_trials`
returns a `(percentiles, trials)` pair, the two accumulators hold exactly
`trials` draws each — they grow in lockstep, one draw per accumulator per
trial — so the returned concatenation has length exactly `2 * trials`. -/
theorem ts_accumulators_lockstep (num_observations ndays : ℕ) (sl d : ℚ)
    (ks : List ℚ → List ℚ → ℚ × ℚ) (stream : ℕ → ℚ) (pos : ℕ)
    (perc : List ℚ) (trials : ℕ) (effs : List Effect)
    (h : check_monte_carlo_trials "test_statistic" num_observations ndays
        sl d ks stream pos =
      (Except.ok (some (CheckResult.test_statistic perc trials)), effs)) :
    perc.length = 2 * trials := by
  simp only [check_monte_carlo_trials, if_true] at h
  split at h
  · next heq => exact absurd heq (by decide)
  · split at h
    · next heq => exact absurd heq (by decide)
    · split at h
      · simp at h
      · next st effs2 heq =>
        simp only [Prod.mk.injEq, Except.ok.injEq, Option.some.injEq,
          CheckResult.test_statistic.injEq] at h
        obtain ⟨⟨rfl, rfl⟩, -⟩ := h
        have hlock := tsLoop_lockstep _ _ _ _ _ _ _ _ _ _ _ rfl rfl heq
          (by intro e hx; cases hx)
        simp only [List.length_append, hlock.1, hlock.2]
        omega
      · next st effs2 heq =>
        simp only [Prod.mk.injEq, Except.ok.injEq, Option.some.injEq,
          CheckResult.test_statistic.injEq] at h
        obtain ⟨⟨rfl, rfl⟩, -⟩ := h
        have hlock := tsLoop_lockstep _ _ _ _ _ _ _ _ _ _ _ rfl rfl heq
          (by intro e hx; cases hx)
        simp only [List.length_append, hlock.1, hlock.2]
        omega
      · next st effs2 heq =>
        simp only [Prod.mk.injEq, Except.ok.injEq, Option.some.injEq,
          CheckResult.test_statistic.injEq] at h
        obtain ⟨⟨rfl, rfl⟩, -⟩ := h
        have hlock := tsLoop_lockstep _ _ _ _ _ _ _ _ _ _ _ rfl rfl heq
          (by intro e hx; cases hx)
        simp only [List.length_append, hlock.1, hlock.2]
        omega

set_option maxRecDepth 8000 in
/-- C9 witness: the concrete converging run returns 200 percentiles in 100
trials, and 200 is indeed twice 100. -/
theorem ts_accumulators_lockstep_witness :
    (List.replicate (200 : ℕ) (0 : ℚ)).length = 2 * 100 :=
  have h : check_monte_carlo_trials "test_statistic" 1 1 (3/5) (1/100)
      constKS zeroStream 0 =
      (Except.ok (some (CheckResult.test_statistic
        (List.replicate 200 0) 100)), [Effect.progressPrint]) := by decide
  ts_accumulators_lockstep 1 1 (3/5) (1/100) constKS zeroStream 0
    (List.replicate 200 0) 100 [Effect.progressPrint] h

/-- C4: a `'test_statistic'` run whose trial count exceeds the hard cap of
200000 without the stopping condition being satisfied terminates non-fatally:
the loop breaks out, `check_monte_carlo_trials` still returns the two partial
accumulators (concatenated) together with the trial count reached (exactly
200001, the only count above the cap), and the run is marked by the
`"Simulation failed!"` print — which converged runs never emit — rather than
by a raised error. -/
theorem ts_cap_nonfatal_partial_results (num_observations ndays : ℕ)
    (sl d : ℚ) (ks : List ℚ → List ℚ → ℚ × ℚ) (stream : ℕ → ℚ) (pos : ℕ) :
    match tsLoop ⟨num_observations, ndays, defaultLevyParameters⟩ stream ks
        sl d 200002 ⟨0, 0, statInit, [], [], pos⟩ [] with
    | (st, effs, TSExit.capped) =>
        check_monte_carlo_trials "test_statistic" num_observations ndays sl d
            ks stream pos =
          (Except.ok (some (CheckResult.test_statistic
            (st.p_list1 ++ st.p_list2) st.trials)), effs) ∧
          st.trials = 200001 ∧ Effect.failedPrint ∈ effs
    | (_, effs, TSExit.converged) => Effect.failedPrint ∉ effs
    | (_, _, TSExit.errored _) => True
    | (_, _, TSExit.fuelOut) => True := by
  split
  · next st effs heq =>
    refine ⟨?_, tsLoop_capped_trials _ _ _ _ _ _ _ _ _ _ (Nat.zero_le _) heq,
      tsLoop_capped_failedPrint _ _ _ _ _ _ _ _ _ _ heq⟩
    simp only [check_monte_carlo_trials, if_true]
    rw [if_neg (by decide), if_neg (by decide), heq]
  · next st effs heq =>
    exact tsLoop_converged_no_failedPrint _ _ _ _ _ _ _ _ _ _
      (by simp) heq
  · trivial
  · trivial

/-- Under `ndays ≤ num_observations` no trial ever raises: `runTrials`
always succeeds. -/
theorem runTrials_ok (num_observations ndays : ℕ) (params : List ℚ)
    (stream : ℕ → ℚ) (h : ndays ≤ num_observations) :
    ∀ (n pos : ℕ), ∃ l pos2,
      runTrials ⟨num_observations, ndays, params⟩ stream n pos =
        Except.ok (l, pos2) := by
  intro n
  induction n with
  | zero => exact fun pos => ⟨[], pos, rfl⟩
  | succ k ih =>
    intro pos
    obtain ⟨v, hv⟩ := get_percentile_ok num_observations ndays params stream
      pos h
    obtain ⟨l, pos2, hrec⟩ := ih (pos + num_observations)
    exact ⟨v :: l, pos2, by simp only [runTrials, hv, hrec]⟩

/-- Under `ndays ≤ num_observations` the `'CLT'` outer loop always
succeeds. -/
theorem cltSamples_ok (num_observations ndays : ℕ) (params : List ℚ)
    (stream : ℕ → ℚ) (h : ndays ≤ num_observations) :
    ∀ (s pos : ℕ), ∃ means,
      cltSamples ⟨num_observations, ndays, params⟩ stream s pos =
        Except.ok means := by
  intro s
  induction s with
  | zero => exact fun pos => ⟨[], rfl⟩
  | succ k ih =>
    intro pos
    obtain ⟨l, pos2, hrun⟩ := runTrials_ok num_observations ndays params
      stream h 15000 pos
    obtain ⟨means, hrec⟩ := ih pos2
    exact ⟨mean l :: means, by simp only [cltSamples, hrun, hrec]⟩

/-- Under `ndays ≤ num_observations` the `'monitoring'` loop always
succeeds. -/
theorem monitoringLoop_ok (num_observations ndays : ℕ) (params : List ℚ)
    (stream : ℕ → ℚ) (h : ndays ≤ num_observations) :
    ∀ (fuel trial : ℕ) (percentiles mean_perc : List ℚ)
      (trials_list : List ℕ) (pos : ℕ), ∃ res,
      monitoringLoop ⟨num_observations, ndays, params⟩ stream fuel trial
        percentiles mean_perc trials_list pos = Except.ok res := by
  intro fuel
  induction fuel with
  | zero =>
    intro trial percentiles mean_perc trials_list pos
    exact ⟨_, rfl⟩
  | succ k ih =>
    intro trial percentiles mean_perc trials_list pos
    obtain ⟨v, hv⟩ := get_percentile_ok num_observations ndays params stream
      pos h
    obtain ⟨res, hrec⟩ := ih (trial + 1) (percentiles ++ [v])
      (mean_perc ++ [mean (percentiles ++ [v])]) (trials_list ++ [trial + 1])
      (pos + num_observations)
    exact ⟨res, by simp only [monitoringLoop, hv, hrec]⟩

/-- C8 counterexample: on the source's own configuration
(`num_observations = 750`, `ndays = 10`) the `'CLT'` procedure itself ends
by rendering — a histogram through `plt.show()` — before returning its data:
the core does invoke the visualization collaborator. -/
theorem core_invokes_render_cex :
    Effect.render ∈ (check_monte_carlo_trials "CLT" 750 10 (3/5) (1/100)
      constKS zeroStream 0).2 := by
  obtain ⟨means, hm⟩ := cltSamples_ok 750 10 defaultLevyParameters zeroStream
    (by decide) 100 0
  simp only [check_monte_carlo_trials, if_true]
  rw [hm]
  simp

/-- C8 amended: the convergence procedures are not all pure data producers:
whenever sampling succeeds the `'CLT'` and `'monitoring'` branches each
render internally (matplotlib histogram/plot ending in `plt.show()`) before
returning; only the `'test_statistic'` branch never emits a rendering
effect, its only effects being textual prints.  All three do return their
data to the caller. -/
theorem core_render_effects (num_observations ndays : ℕ) (sl d : ℚ)
    (ks : List ℚ → List ℚ → ℚ × ℚ) (stream : ℕ → ℚ) (pos : ℕ)
    (h : ndays ≤ num_observations) :
    Effect.render ∈ (check_monte_carlo_trials "CLT" num_observations ndays
      sl d ks stream pos).2 ∧
    Effect.render ∈ (check_monte_carlo_trials "monitoring" num_observations
      ndays sl d ks stream pos).2 ∧
    Effect.render ∉ (check_monte_carlo_trials "test_statistic"
      num_observations ndays sl d ks stream pos).2 := by
  refine ⟨?_, ?_, ?_⟩
  · obtain ⟨means, hm⟩ := cltSamples_ok num_observations ndays
      defaultLevyParameters stream h 100 pos
    simp only [check_monte_carlo_trials, if_true]
    rw [hm]
    simp
  · obtain ⟨⟨mp, tl⟩, hm⟩ := monitoringLoop_ok num_observations ndays
      defaultLevyParameters stream h 30000 0 [] [] [] pos
    simp only [check_monte_carlo_trials, if_true]
    rw [if_neg (by decide), hm]
    simp
  · simp only [check_monte_carlo_trials, if_true]
    rw [if_neg (by decide), if_neg (by decide)]
    split
    · next heq => exact tsLoop_no_render _ _ _ _ _ _ _ _ _ _ _ (by simp) heq
    · next heq => exact tsLoop_no_render _ _ _ _ _ _ _ _ _ _ _ (by simp) heq
    · next heq => exact tsLoop_no_render _ _ _ _ _ _ _ _ _ _ _ (by simp) heq
    · next heq => exact tsLoop_no_render _ _ _ _ _ _ _ _ _ _ _ (by simp) heq

/-- C8 amended witness: instantiated at a one-observation, one-day
configuration. -/
theorem core_render_effects_witness :
    (1 : ℕ) ≤ 1 ∧
      (Effect.render ∈ (check_monte_carlo_trials "CLT" 1 1 (3/5) (1/100)
        constKS zeroStream 0).2 ∧
      Effect.render ∈ (check_monte_carlo_trials "monitoring" 1 1 (3/5)
        (1/100) constKS zeroStream 0).2 ∧
      Effect.render ∉ (check_monte_carlo_trials "test_statistic" 1 1 (3/5)
        (1/100) constKS zeroStream 0).2) :=
  ⟨by decide,
    core_render_effects 1 1 (3/5) (1/100) constKS zeroStream 0 (by decide)⟩

/-- C10: for every method string other than `'CLT'`, `'monitoring'` and
`'test_statistic'`, `check_monte_carlo_trials` falls through every branch:
no sampling loop runs, no effect is emitted, no error is raised, and the
call returns Python's implicit `None`. -/
theorem unknown_method_returns_none (method : String)
    (num_observations ndays : ℕ) (sl d : ℚ)
    (ks : List ℚ → List ℚ → ℚ × ℚ) (stream : ℕ → ℚ) (pos : ℕ)
    (h1 : method ≠ "CLT") (h2 : method ≠ "monitoring")
    (h3 : method ≠ "test_statistic") :
    check_monte_carlo_trials method num_observations ndays sl d ks stream
      pos = (Except.ok none, []) := by
  simp only [check_monte_carlo_trials]
  rw [if_neg h1, if_neg h2, if_neg h3]

/-- C10 witness: the unrecognized method name `"histogram"`. -/
theorem unknown_method_returns_none_witness :
    (("histogram" : String) ≠ "CLT" ∧ ("histogram" : String) ≠ "monitoring" ∧
        ("histogram" : String) ≠ "test_statistic") ∧
      check_monte_carlo_trials "histogram" 750 10 (3/5) (1/100) constKS
          zeroStream 0 = (Except.ok none, []) :=
  ⟨⟨by decide, by decide, by decide⟩,
    unknown_method_returns_none "histogram" 750 10 (3/5) (1/100) constKS
      zeroStream 0 (by decide) (by decide) (by decide)⟩

end

end MonteCarloSim
